/-
Verification of the rustyclint real-time backend core against its
specification.  The development shallowly embeds the relevant Rust code:

* `crates/api-gateway/src/routes/ws.rs` — the lib0 varint / frame codec
  and the binary-frame decoding sequence of the collaboration handler;
* `crates/collab/src/room.rs` — rooms, participants, the room registry;
* `crates/collab/src/sync.rs` — the legacy JSON sync envelope;
* `crates/sandbox/src/executor.rs`, `limits.rs` — the sandbox executor,
  modelled as a pure state machine over an environment describing the
  outcome of each Docker interaction, together with the trace of
  container lifecycle events it performs.

Machine integers are modelled as `Nat` / `Int`; byte strings as
`List Nat` (each element a byte value) or `List (Fin 256)` where the
Rust type is `Vec<u8>`.
-/
import Mathlib

namespace RustyClint

set_option maxRecDepth 8192

/-! ## Framing codec (ws.rs)

`write_var_uint` embeds ws.rs lines 28–34: repeatedly push the low seven
bits with the continuation bit set while more than `0x7f` remains, then
push the final byte.  `value as u8` is `value % 256`, `& 0x7f` is
`&&& 127`, `| 0x80` is `||| 128`, `value >>= 7` is `>>> 7`. -/
def write_var_uint (value : Nat) : List Nat :=
  if h : value > 0x7f then
    (((value % 256) &&& 0x7f) ||| 0x80) :: write_var_uint (value >>> 7)
  else
    [value % 256]
termination_by value
decreasing_by
  simp only [Nat.shiftRight_eq_div_pow]
  omega

/-- The loop of `read_var_uint` (ws.rs lines 37–53): `pos` is the read
position, `shift` and `result` the loop state.  Each iteration returns
`none` if the position is past the end, otherwise ors the low seven bits
of the byte into `result` at `shift` and stops when the high bit of the
byte is clear. -/
def read_var_uint_loop (data : List Nat) (pos shift result : Nat) :
    Option (Nat × Nat) :=
  if h : pos < data.length then
    let byte := data.get ⟨pos, h⟩
    let result' := result ||| ((byte &&& 0x7f) <<< shift)
    if byte &&& 0x80 = 0 then
      some (result', pos + 1)
    else
      read_var_uint_loop data (pos + 1) (shift + 7) result'
  else
    none
termination_by data.length - pos

/-- `read_var_uint` (ws.rs lines 37–53): returns the decoded value and
the new position (the Rust code advances `pos` in place). -/
def read_var_uint (data : List Nat) (pos : Nat) : Option (Nat × Nat) :=
  read_var_uint_loop data pos 0 0

/-- `write_var_uint8_array` (ws.rs lines 56–59): varint length prefix
followed by the raw bytes. -/
def write_var_uint8_array (data : List Nat) : List Nat :=
  write_var_uint data.length ++ data

/-- `read_var_uint8_array` (ws.rs lines 62–70): read a varint length,
fail if fewer than that many bytes remain, otherwise return the slice
`data[pos..pos+len]` and the advanced position. -/
def read_var_uint8_array (data : List Nat) (pos : Nat) :
    Option (List Nat × Nat) :=
  match read_var_uint data pos with
  | none => none
  | some (len, pos1) =>
    if pos1 + len > data.length then none
    else some ((data.drop pos1).take len, pos1 + len)

/-- Protocol constant `MSG_SYNC` (ws.rs line 20). -/
def MSG_SYNC : Nat := 0
/-- Protocol constant `SYNC_STEP1` (ws.rs line 23). -/
def SYNC_STEP1 : Nat := 0
/-- Protocol constant `SYNC_STEP2` (ws.rs line 24). -/
def SYNC_STEP2 : Nat := 1
/-- Protocol constant `SYNC_UPDATE` (ws.rs line 25). -/
def SYNC_UPDATE : Nat := 2

/-- `encode_sync_step1` (ws.rs lines 73–79). -/
def encode_sync_step1 (state_vector : List Nat) : List Nat :=
  MSG_SYNC :: SYNC_STEP1 :: write_var_uint8_array state_vector

/-- `encode_sync_step2` (ws.rs lines 82–88). -/
def encode_sync_step2 (update : List Nat) : List Nat :=
  MSG_SYNC :: SYNC_STEP2 :: write_var_uint8_array update

/-- `encode_sync_update` (ws.rs lines 91–97). -/
def encode_sync_update (update : List Nat) : List Nat :=
  MSG_SYNC :: SYNC_UPDATE :: write_var_uint8_array update

/-- The frame-decoding sequence of `handle_collab`'s binary branch
(ws.rs lines 253–312): read the message-type varint, then the sync
sub-type varint, then the length-prefixed payload; returns all three
together with the final position. -/
def decode_frame (data : List Nat) : Option (Nat × Nat × List Nat × Nat) :=
  match read_var_uint data 0 with
  | none => none
  | some (msgType, pos1) =>
    match read_var_uint data pos1 with
    | none => none
    | some (syncType, pos2) =>
      match read_var_uint8_array data pos2 with
      | none => none
      | some (payload, pos3) => some (msgType, syncType, payload, pos3)

/-! ### Codec lemmas -/

/-- Unfolding equation of `write_var_uint` in arithmetic form. -/
theorem write_var_uint_eq (value : Nat) :
    write_var_uint value =
      if value > 127 then (value % 128 + 128) :: write_var_uint (value / 128)
      else [value] := by
  rw [write_var_uint]
  have hb : ∀ b : Nat, b < 256 → b &&& 127 = b % 128 := by decide
  have hr : ∀ r : Nat, r < 128 → r ||| 128 = r + 128 := by decide
  by_cases h : value > 127
  · simp only [h, dif_pos, if_pos]
    have h1 : (value % 256) &&& 127 = value % 128 := by
      rw [hb _ (Nat.mod_lt _ (by omega))]
      omega
    have h2 : value % 128 ||| 128 = value % 128 + 128 :=
      hr _ (Nat.mod_lt _ (by omega))
    rw [h1, h2, Nat.shiftRight_eq_div_pow]
  · have hv : value % 256 = value := Nat.mod_eq_of_lt (by omega)
    simp [h, hv]

/-- Every byte emitted by `write_var_uint` is a byte value. -/
theorem write_var_uint_bytes (value : Nat) :
    ∀ b ∈ write_var_uint value, b < 256 := by
  induction value using Nat.strong_induction_on with
  | _ value ih =>
    rw [write_var_uint_eq]
    by_cases h : value > 127
    · simp only [h, if_pos, List.mem_cons]
      rintro b (rfl | hb)
      · have := Nat.mod_lt value (show 0 < 128 by omega)
        omega
      · exact ih (value / 128) (by omega) b hb
    · simp only [h, if_neg, not_false_iff, List.mem_singleton]
      rintro b rfl
      omega

/-- A list-level restatement of the read loop: processes the remaining
bytes and returns the decoded value and the number of bytes consumed. -/
def read_loop_list : List Nat → Nat → Nat → Option (Nat × Nat)
  | [], _, _ => none
  | b :: rest, shift, result =>
    let result' := result ||| ((b &&& 0x7f) <<< shift)
    if b &&& 0x80 = 0 then
      some (result', 1)
    else
      (read_loop_list rest (shift + 7) result').map fun vc => (vc.1, vc.2 + 1)

/-- The position-indexed loop agrees with the list-level loop on the
suffix starting at `pos`. -/
theorem read_var_uint_loop_eq_list (data : List Nat) (pos shift result : Nat) :
    read_var_uint_loop data pos shift result =
      (read_loop_list (data.drop pos) shift result).map
        fun vc => (vc.1, pos + vc.2) := by
  rw [read_var_uint_loop]
  by_cases h : pos < data.length
  · have hdrop : data.drop pos = data[pos] :: data.drop (pos + 1) :=
      List.drop_eq_getElem_cons h
    rw [hdrop]
    simp only [h, dif_pos, read_loop_list, List.get_eq_getElem]
    by_cases hb : data[pos] &&& 128 = 0
    · simp [hb]
    · rw [if_neg hb, if_neg hb,
        read_var_uint_loop_eq_list data (pos + 1) (shift + 7)]
      cases read_loop_list (data.drop (pos + 1)) (shift + 7)
          (result ||| ((data[pos] &&& 127) <<< shift)) with
      | none => rfl
      | some vc =>
        simp only [Option.map_some']
        congr 2
        omega
  · have hdrop : data.drop pos = [] := by
      rw [List.drop_eq_nil_iff]
      omega
    simp [h, hdrop, read_loop_list]
termination_by data.length - pos

/-- Key arithmetic fact: oring a 7-bit group shifted by `shift` into an
accumulator that lies below `2 ^ shift` is addition of disjoint parts. -/
theorem lor_shift_eq_add (result m shift : Nat) (h : result < 2 ^ shift) :
    result ||| (m <<< shift) = 2 ^ shift * m + result := by
  rw [Nat.shiftLeft_eq, Nat.mul_comm m (2 ^ shift), Nat.lor_comm,
    ← Nat.mul_add_lt_is_or h]

/-- Round trip of the list-level loop over an encoded value followed by
arbitrary trailing bytes. -/
theorem read_loop_list_write (n : Nat) :
    ∀ rest shift result, result < 2 ^ shift →
      read_loop_list (write_var_uint n ++ rest) shift result =
        some (2 ^ shift * n + result, (write_var_uint n).length) := by
  induction n using Nat.strong_induction_on with
  | _ n ih =>
    intro rest shift result hlt
    rw [write_var_uint_eq]
    by_cases h : n > 127
    · have hmod : n % 128 < 128 := Nat.mod_lt _ (by omega)
      have hb1 : (n % 128 + 128) &&& 128 = 0 → False := by
        have : ∀ r : Nat, r < 128 → (r + 128) &&& 128 = 128 := by decide
        rw [this _ hmod]
        omega
      have hb2 : (n % 128 + 128) &&& 127 = n % 128 := by
        have : ∀ r : Nat, r < 128 → (r + 128) &&& 127 = r := by decide
        exact this _ hmod
      simp only [h, if_pos, List.cons_append, read_loop_list, hb2]
      rw [if_neg hb1]
      have hlt' : result ||| ((n % 128) <<< shift) < 2 ^ (shift + 7) := by
        rw [lor_shift_eq_add _ _ _ hlt, pow_add]
        have : n % 128 ≤ 127 := by omega
        calc 2 ^ shift * (n % 128) + result
            ≤ 2 ^ shift * 127 + result := by
              exact Nat.add_le_add_right
                (Nat.mul_le_mul_left _ this) result
          _ < 2 ^ shift * 127 + 2 ^ shift := by omega
          _ = 2 ^ shift * 2 ^ 7 := by ring
      rw [ih (n / 128) (by omega) rest (shift + 7) _ hlt']
      simp only [Option.map_some, List.length_cons]
      have hval : 2 ^ (shift + 7) * (n / 128) +
          (result ||| (n % 128) <<< shift) = 2 ^ shift * n + result := by
        rw [lor_shift_eq_add _ _ _ hlt, pow_add]
        have hdm : 128 * (n / 128) + n % 128 = n := Nat.div_add_mod n 128
        have h128 : (2 : ℕ) ^ 7 = 128 := by norm_num
        calc 2 ^ shift * 2 ^ 7 * (n / 128) +
              (2 ^ shift * (n % 128) + result)
            = 2 ^ shift * (128 * (n / 128) + n % 128) + result := by
              rw [h128]; ring
          _ = 2 ^ shift * n + result := by rw [hdm]
      rw [hval]
      simp
    · simp only [h, if_neg, not_false_iff, List.cons_append, List.nil_append,
        read_loop_list]
      have hb0 : n &&& 128 = 0 := by
        have : ∀ b : Nat, b < 128 → b &&& 128 = 0 := by decide
        exact this n (by omega)
      have hb7 : n &&& 127 = n := by
        have : ∀ b : Nat, b < 128 → b &&& 127 = b := by decide
        exact this n (by omega)
      rw [hb7, if_pos hb0, lor_shift_eq_add _ _ _ hlt]
      simp

/-- If every remaining byte has the continuation bit set, the list-level
loop fails. -/
theorem read_loop_list_none (l : List Nat) :
    ∀ shift result, (∀ b ∈ l, b &&& 0x80 ≠ 0) →
      read_loop_list l shift result = none := by
  induction l with
  | nil => intro shift result _; rfl
  | cons b rest ih =>
    intro shift result hall
    simp only [read_loop_list]
    rw [if_neg (hall b (List.mem_cons_self b rest))]
    rw [ih _ _ fun x hx => hall x (List.mem_cons_of_mem b hx)]
    rfl

/-- Varint decoding of an encoded value embedded at position `pos`. -/
theorem read_var_uint_write (pre rest : List Nat) (n : Nat) :
    read_var_uint (pre ++ (write_var_uint n ++ rest)) pre.length =
      some (n, pre.length + (write_var_uint n).length) := by
  rw [read_var_uint, read_var_uint_loop_eq_list, List.drop_left,
    read_loop_list_write n rest 0 0 (by norm_num)]
  simp

/-- Masking a sub-`128` value with `0x7f` is the identity. -/
theorem land_127_of_lt {b : Nat} (h : b < 128) : b &&& 127 = b := by
  have : ∀ b : Nat, b < 128 → b &&& 127 = b := by decide
  exact this b h

/-- A sub-`128` value has the continuation bit clear. -/
theorem land_128_of_lt {b : Nat} (h : b < 128) : b &&& 128 = 0 := by
  have : ∀ b : Nat, b < 128 → b &&& 128 = 0 := by decide
  exact this b h

/-- Decoding a well-formed two-byte-header frame: header bytes below
`128`, then a length-prefixed payload. -/
theorem decode_frame_header (b1 b2 : Nat) (hb1 : b1 < 128) (hb2 : b2 < 128)
    (p : List Nat) :
    decode_frame (b1 :: b2 :: write_var_uint8_array p) =
      some (b1, b2, p, (b1 :: b2 :: write_var_uint8_array p).length) := by
  have h0 : read_var_uint (b1 :: b2 :: write_var_uint8_array p) 0 =
      some (b1, 1) := by
    rw [read_var_uint, read_var_uint_loop_eq_list]
    simp only [List.drop_zero, read_loop_list, land_127_of_lt hb1,
      land_128_of_lt hb1, if_pos trivial]
    simp
  have h1 : read_var_uint (b1 :: b2 :: write_var_uint8_array p) 1 =
      some (b2, 2) := by
    rw [read_var_uint, read_var_uint_loop_eq_list]
    simp only [List.drop_succ_cons, List.drop_zero, read_loop_list,
      land_127_of_lt hb2, land_128_of_lt hb2, if_pos trivial]
    simp
  have h2 : read_var_uint (b1 :: b2 :: write_var_uint8_array p) 2 =
      some (p.length, 2 + (write_var_uint p.length).length) := by
    rw [read_var_uint, read_var_uint_loop_eq_list]
    have hdrop : (b1 :: b2 :: write_var_uint8_array p).drop 2 =
        write_var_uint p.length ++ p := by
      simp [write_var_uint8_array]
    rw [hdrop, read_loop_list_write p.length p 0 0 (by norm_num)]
    simp
  have hlen : (b1 :: b2 :: write_var_uint8_array p).length =
      2 + (write_var_uint p.length).length + p.length := by
    simp [write_var_uint8_array]
    omega
  have hdrop2 : (b1 :: b2 :: write_var_uint8_array p).drop
      (2 + (write_var_uint p.length).length) = p := by
    show (b1 :: b2 :: (write_var_uint p.length ++ p)).drop
      (2 + (write_var_uint p.length).length) = p
    rw [show 2 + (write_var_uint p.length).length =
      (write_var_uint p.length).length + 1 + 1 by omega]
    simp only [List.drop_succ_cons]
    exact List.drop_left _ _
  have harr : read_var_uint8_array (b1 :: b2 :: write_var_uint8_array p) 2 =
      some (p, (b1 :: b2 :: write_var_uint8_array p).length) := by
    simp only [read_var_uint8_array, h2]
    rw [if_neg (by omega), hdrop2, List.take_length, hlen]
  simp only [decode_frame, h0, h1, harr]

/-- **C5.** For every unsigned integer `n` in `[0, 2^64)`, decoding the
bytes produced by `write_var_uint n` with `read_var_uint` starting at
position `0` yields `some n` and leaves the position equal to the number
of bytes written; decoding returns `none` when the input is exhausted
before a byte with the high bit clear is seen. -/
theorem varint_round_trip :
    (∀ n : Nat, n < 2 ^ 64 →
      read_var_uint (write_var_uint n) 0 =
        some (n, (write_var_uint n).length)) ∧
    (∀ (data : List Nat) (pos : Nat),
      (∀ i, ∀ h : i < data.length, pos ≤ i →
        data.get ⟨i, h⟩ &&& 0x80 ≠ 0) →
      read_var_uint data pos = none) := by
  constructor
  · intro n _
    have := read_var_uint_write [] [] n
    simpa using this
  · intro data pos hall
    rw [read_var_uint, read_var_uint_loop_eq_list]
    rw [read_loop_list_none (data.drop pos) 0 0 ?_]
    · rfl
    · intro b hb
      obtain ⟨i, hi, rfl⟩ := List.mem_iff_getElem.mp hb
      rw [List.getElem_drop]
      have hlt : pos + i < data.length := by
        have := data.length_drop pos
        omega
      exact hall (pos + i) hlt (by omega)

/-- Closed witness for `varint_round_trip`: instantiates the round trip
at `n = 300` and the truncation failure on `[0x80, 0xff]`. -/
theorem varint_round_trip_witness :
    read_var_uint (write_var_uint 300) 0 =
      some (300, (write_var_uint 300).length) ∧
    read_var_uint [128, 255] 0 = none := by
  constructor
  · exact varint_round_trip.1 300 (by norm_num)
  · refine varint_round_trip.2 [128, 255] 0 ?_
    intro i h _
    have h2 : i < 2 := by simpa using h
    interval_cases i
    · show (128 : Nat) &&& 128 ≠ 0
      decide
    · show (255 : Nat) &&& 128 ≠ 0
      decide

/-- **C6.** For every byte string `p`, decoding the frame produced by
`encode_sync_update p` yields message type `0` (Sync), sync sub-type `2`
(Update), and a payload byte-for-byte equal to `p`, with the whole frame
consumed; the same round trip holds for `encode_sync_step1` (sub-type
`0`) and `encode_sync_step2` (sub-type `1`). -/
theorem frame_round_trip (p : List Nat) :
    decode_frame (encode_sync_update p) =
      some (0, 2, p, (encode_sync_update p).length) ∧
    decode_frame (encode_sync_step1 p) =
      some (0, 0, p, (encode_sync_step1 p).length) ∧
    decode_frame (encode_sync_step2 p) =
      some (0, 1, p, (encode_sync_step2 p).length) := by
  refine ⟨?_, ?_, ?_⟩
  · exact decode_frame_header 0 2 (by norm_num) (by norm_num) p
  · exact decode_frame_header 0 0 (by norm_num) (by norm_num) p
  · exact decode_frame_header 0 1 (by norm_num) (by norm_num) p

/-! ## Collaboration rooms (room.rs)

Participant maps model `DashMap<Uuid, ParticipantInfo>` as association
lists: `insert` replaces the value at an existing key (or appends),
`remove` drops the key, lookup takes the first match.  UUIDs are
modelled as `Nat`. -/

/-- `ParticipantInfo` (room.rs lines 20–24). -/
structure ParticipantInfo where
  user_id : Nat
  username : String
  cursor_position : Option Nat
deriving Repr, DecidableEq

/-- `CollabDocument` (document.rs) is opaque to every room operation in
the claims: no room operation reads or writes it.  It is modelled by its
identity. -/
structure CollabDocument where
  id : Nat
deriving Repr, DecidableEq

/-- `CollabRoom` (room.rs lines 12–16).  `subscriber_count` models the
`broadcast::Sender`: it counts the receivers handed out so far, and
`subscribe` returns a receiver handle distinct from all earlier ones. -/
structure CollabRoom where
  document : CollabDocument
  subscriber_count : Nat
  participants : List (Nat × ParticipantInfo)
deriving Repr, DecidableEq

/-- `DashMap::insert`: replace the value at the key if present,
otherwise add the entry. -/
def mapInsert {α : Type} (l : List (Nat × α)) (k : Nat) (v : α) :
    List (Nat × α) :=
  if l.any fun e => e.1 == k then
    l.map fun e => if e.1 == k then (k, v) else e
  else
    l ++ [(k, v)]

/-- `DashMap::get`: first entry with the key. -/
def mapLookup {α : Type} (l : List (Nat × α)) (k : Nat) : Option α :=
  (l.find? fun e => e.1 == k).map Prod.snd

/-- `DashMap::remove`: drop the entry with the key. -/
def mapRemove {α : Type} (l : List (Nat × α)) (k : Nat) : List (Nat × α) :=
  l.filter fun e => e.1 != k

/-- `CollabRoom::join` (room.rs lines 38–48): insert (or replace) the
participant with a `None` cursor, then subscribe to the broadcast
channel; returns the updated room and the fresh receiver handle. -/
def CollabRoom.join (room : CollabRoom) (user_id : Nat) (username : String) :
    CollabRoom × Nat :=
  ({ room with
      participants := mapInsert room.participants user_id
        ⟨user_id, username, none⟩,
      subscriber_count := room.subscriber_count + 1 },
    room.subscriber_count)

/-- `CollabRoom::leave` (room.rs lines 51–53). -/
def CollabRoom.leave (room : CollabRoom) (user_id : Nat) : CollabRoom :=
  { room with participants := mapRemove room.participants user_id }

/-- The in-place field write `info.cursor_position = Some(position)`
performed by `update_cursor` (room.rs line 58). -/
def setCursor (position : Nat) (info : ParticipantInfo) : ParticipantInfo :=
  { info with cursor_position := some position }

/-- `CollabRoom::update_cursor` (room.rs lines 56–60): if the
participant is present, set its cursor field; otherwise do nothing. -/
def CollabRoom.update_cursor (room : CollabRoom) (user_id position : Nat) :
    CollabRoom :=
  if room.participants.any fun e => e.1 == user_id then
    { room with
        participants := room.participants.map fun e =>
          if e.1 == user_id then (user_id, setCursor position e.2) else e }
  else room

/-- `CollabRoom::is_empty` (room.rs lines 73–75). -/
def CollabRoom.is_empty (room : CollabRoom) : Bool :=
  room.participants.isEmpty

/-- `RoomManager` (room.rs lines 79–81): the registry mapping document
ids to rooms. -/
structure RoomManager where
  rooms : List (Nat × CollabRoom)
deriving Repr, DecidableEq

/-- `RoomManager::cleanup` (room.rs lines 111–118): if a room exists for
the document id and is empty, remove it; otherwise leave the registry
unchanged. -/
def RoomManager.cleanup (m : RoomManager) (document_id : Nat) : RoomManager :=
  match m.rooms.find? fun e => e.1 == document_id with
  | some entry =>
    if entry.2.is_empty then
      { rooms := m.rooms.filter fun e => e.1 != document_id }
    else m
  | none => m

/-! ### Association-list lemmas -/

/-- Keys are unchanged by a value-replacing map. -/
theorem map_fst_replace {α : Type} (l : List (Nat × α)) (k : Nat)
    (g : α → α) :
    ((l.map fun e => if e.1 == k then (k, g e.2) else e).map Prod.fst) =
      l.map Prod.fst := by
  rw [List.map_map]
  apply List.map_congr_left
  intro e _
  by_cases h : e.1 = k
  · simp [h]
  · simp [h]

/-- `find?` at the replaced key after a value-replacing map. -/
theorem find?_map_replace_self {α : Type} (l : List (Nat × α)) (k : Nat)
    (g : α → α) :
    ((l.map fun e => if e.1 == k then (k, g e.2) else e).find?
        fun e => e.1 == k) =
      (l.find? fun e => e.1 == k).map fun e => (k, g e.2) := by
  induction l with
  | nil => rfl
  | cons e t ih =>
    by_cases h : e.1 = k
    · rw [List.map_cons, if_pos (by simp [h]),
        List.find?_cons_of_pos _ (by simp),
        List.find?_cons_of_pos _ (by simp [h])]
      rfl
    · rw [List.map_cons, if_neg (by simp [h]),
        List.find?_cons_of_neg _ (by simp [h]),
        List.find?_cons_of_neg _ (by simp [h])]
      exact ih

/-- `find?` at any other key is untouched by a value-replacing map. -/
theorem find?_map_replace_ne {α : Type} (l : List (Nat × α)) (k p : Nat)
    (hne : p ≠ k) (g : α → α) :
    ((l.map fun e => if e.1 == k then (k, g e.2) else e).find?
        fun e => e.1 == p) =
      l.find? fun e => e.1 == p := by
  induction l with
  | nil => rfl
  | cons e t ih =>
    by_cases h : e.1 = k
    · rw [List.map_cons, if_pos (by simp [h]),
        List.find?_cons_of_neg _ (by simp [hne.symm]),
        List.find?_cons_of_neg _ (by simp [h, hne.symm])]
      exact ih
    · rw [List.map_cons, if_neg (by simp [h])]
      by_cases hp : e.1 = p
      · rw [List.find?_cons_of_pos _ (by simp [hp]),
          List.find?_cons_of_pos _ (by simp [hp])]
      · rw [List.find?_cons_of_neg _ (by simp [hp]),
          List.find?_cons_of_neg _ (by simp [hp])]
        exact ih

/-- `find?` over a filter that removes exactly the key `d` agrees with
`find?` at any other key. -/
theorem find?_filter_ne {α : Type} (l : List (Nat × α)) (d p : Nat)
    (hne : p ≠ d) :
    ((l.filter fun e => e.1 != d).find? fun e => e.1 == p) =
      l.find? fun e => e.1 == p := by
  induction l with
  | nil => rfl
  | cons e t ih =>
    by_cases hd : e.1 = d
    · rw [List.filter_cons_of_neg (by simp [hd]),
        List.find?_cons_of_neg _ (by simp [hd, hne.symm])]
      exact ih
    · rw [List.filter_cons_of_pos (by simp [hd])]
      by_cases hp : e.1 = p
      · rw [List.find?_cons_of_pos _ (by simp [hp]),
          List.find?_cons_of_pos _ (by simp [hp])]
      · rw [List.find?_cons_of_neg _ (by simp [hp]),
          List.find?_cons_of_neg _ (by simp [hp])]
        exact ih

/-- `countP` at a key is unchanged by a value-replacing map. -/
theorem countP_map_replace {α : Type} (l : List (Nat × α)) (k : Nat)
    (g : α → α) :
    ((l.map fun e => if e.1 == k then (k, g e.2) else e).countP
        fun e => e.1 == k) =
      l.countP fun e => e.1 == k := by
  rw [List.countP_map]
  apply List.countP_congr
  intro e _
  by_cases h : e.1 = k
  · simp [h]
  · simp [h]

/-- An association list whose keys are distinct holds exactly one entry
at a present key. -/
theorem countP_eq_one_of_nodup {α : Type} (l : List (Nat × α)) (k : Nat)
    (hnodup : (l.map Prod.fst).Nodup)
    (hmem : (l.any fun e => e.1 == k) = true) :
    (l.countP fun e => e.1 == k) = 1 := by
  obtain ⟨e, he, hek⟩ := List.any_eq_true.mp hmem
  have hk : k ∈ l.map Prod.fst :=
    List.mem_map.mpr ⟨e, he, beq_iff_eq.mp hek⟩
  have hcount := List.count_eq_one_of_mem hnodup hk
  rw [List.count_eq_countP, List.countP_map] at hcount
  rw [← hcount]
  apply List.countP_congr
  intro x _
  simp [Function.comp]

/-! ### Room and registry theorems -/

/-- **C7.** For every `RoomManager` state and document id `d`,
`cleanup d` removes the room mapped to `d` if and only if that room's
participant set is empty at the moment of the call; if the room is
non-empty or absent, the registry is unchanged. -/
theorem cleanup_spec (m : RoomManager) (d : Nat) :
    (∀ room, mapLookup m.rooms d = some room → room.is_empty = true →
      mapLookup (m.cleanup d).rooms d = none ∧
      ∀ d2, d2 ≠ d →
        mapLookup (m.cleanup d).rooms d2 = mapLookup m.rooms d2) ∧
    (∀ room, mapLookup m.rooms d = some room → room.is_empty = false →
      m.cleanup d = m) ∧
    (mapLookup m.rooms d = none → m.cleanup d = m) := by
  cases hf : m.rooms.find? fun e => e.1 == d with
  | none =>
    refine ⟨?_, ?_, ?_⟩
    · intro room hlook _
      rw [mapLookup, hf] at hlook
      simp at hlook
    · intro room hlook _
      rw [mapLookup, hf] at hlook
      simp at hlook
    · intro _
      simp only [RoomManager.cleanup, hf]
  | some entry =>
    have hclean : m.cleanup d =
        if entry.2.is_empty then
          { rooms := m.rooms.filter fun e => e.1 != d }
        else m := by
      simp only [RoomManager.cleanup, hf]
    refine ⟨?_, ?_, ?_⟩
    · intro room hlook hemp
      rw [mapLookup, hf] at hlook
      simp only [Option.map_some', Option.some.injEq] at hlook
      rw [hclean, if_pos (hlook ▸ hemp)]
      constructor
      · rw [mapLookup, List.find?_eq_none.mpr ?_]
        · rfl
        · intro e he
          have := (List.mem_filter.mp he).2
          simp only [bne_iff_ne, ne_eq] at this
          simp [this]
      · intro d2 hd2
        rw [mapLookup, find?_filter_ne _ _ _ hd2, mapLookup]
    · intro room hlook hemp
      rw [mapLookup, hf] at hlook
      simp only [Option.map_some', Option.some.injEq] at hlook
      rw [hclean, if_neg (by rw [hlook, hemp]; simp)]
    · intro hlook
      rw [mapLookup, hf] at hlook
      simp at hlook

/-- Closed witness for `cleanup_spec`: a registry holding one empty room
at id `5`; cleanup removes it. -/
theorem cleanup_spec_witness :
    mapLookup
      ((RoomManager.cleanup ⟨[(5, ⟨⟨5⟩, 0, []⟩)]⟩ 5)).rooms 5 = none ∧
    RoomManager.cleanup
      ⟨[(6, ⟨⟨6⟩, 0, [(1, ⟨1, "ann", none⟩)]⟩)]⟩ 6 =
      ⟨[(6, ⟨⟨6⟩, 0, [(1, ⟨1, "ann", none⟩)]⟩)]⟩ ∧
    RoomManager.cleanup ⟨[]⟩ 9 = ⟨[]⟩ := by
  refine ⟨?_, ?_, ?_⟩
  · exact ((cleanup_spec ⟨[(5, ⟨⟨5⟩, 0, []⟩)]⟩ 5).1 ⟨⟨5⟩, 0, []⟩ rfl rfl).1
  · exact (cleanup_spec ⟨[(6, ⟨⟨6⟩, 0, [(1, ⟨1, "ann", none⟩)]⟩)]⟩ 6).2.1
      ⟨⟨6⟩, 0, [(1, ⟨1, "ann", none⟩)]⟩ rfl rfl
  · exact (cleanup_spec ⟨[]⟩ 9).2.2 rfl

/-- **C8.** `update_cursor p line` with `p` a present participant sets
only that participant's `cursor_position` to `some line` and changes
nothing else — the document, the broadcast channel, the key set and
every other participant are unchanged; if `p` is not a participant, the
whole room state is unchanged. -/
theorem update_cursor_spec (room : CollabRoom) (uid line : Nat) :
    ((room.participants.any fun e => e.1 == uid) = true →
      (room.update_cursor uid line).document = room.document ∧
      (room.update_cursor uid line).subscriber_count =
        room.subscriber_count ∧
      (room.update_cursor uid line).participants.map Prod.fst =
        room.participants.map Prod.fst ∧
      mapLookup (room.update_cursor uid line).participants uid =
        (mapLookup room.participants uid).map (setCursor line) ∧
      ∀ p, p ≠ uid →
        mapLookup (room.update_cursor uid line).participants p =
          mapLookup room.participants p) ∧
    ((room.participants.any fun e => e.1 == uid) = false →
      room.update_cursor uid line = room) := by
  constructor
  · intro hpresent
    rw [CollabRoom.update_cursor, if_pos hpresent]
    refine ⟨rfl, rfl, ?_, ?_, ?_⟩
    · exact map_fst_replace room.participants uid (setCursor line)
    · show mapLookup (room.participants.map fun e =>
          if e.1 == uid then (uid, setCursor line e.2) else e) uid = _
      rw [mapLookup,
        find?_map_replace_self room.participants uid (setCursor line),
        mapLookup]
      cases room.participants.find? fun e => e.1 == uid <;> rfl
    · intro p hp
      show mapLookup (room.participants.map fun e =>
          if e.1 == uid then (uid, setCursor line e.2) else e) p = _
      rw [mapLookup,
        find?_map_replace_ne room.participants uid p hp (setCursor line),
        mapLookup]
  · intro habsent
    rw [CollabRoom.update_cursor, if_neg (by rw [habsent]; simp)]

/-- Closed witness for `update_cursor_spec`: a two-participant room;
updating participant `1`'s cursor to line `42` leaves participant `2`
untouched, and updating an absent participant is the identity. -/
theorem update_cursor_spec_witness :
    mapLookup ((CollabRoom.update_cursor
        ⟨⟨3⟩, 2, [(1, ⟨1, "ann", none⟩), (2, ⟨2, "bob", some 7⟩)]⟩
        1 42)).participants 2 = some ⟨2, "bob", some 7⟩ ∧
    CollabRoom.update_cursor
        ⟨⟨3⟩, 2, [(1, ⟨1, "ann", none⟩)]⟩ 9 42 =
      ⟨⟨3⟩, 2, [(1, ⟨1, "ann", none⟩)]⟩ := by
  constructor
  · rw [((update_cursor_spec
      ⟨⟨3⟩, 2, [(1, ⟨1, "ann", none⟩), (2, ⟨2, "bob", some 7⟩)]⟩
      1 42).1 rfl).2.2.2.2 2 (by omega)]
    rfl
  · exact (update_cursor_spec ⟨⟨3⟩, 2, [(1, ⟨1, "ann", none⟩)]⟩ 9 42).2 rfl

/-- **C10.** `join id name` with an id that is already a participant
replaces the existing entry rather than failing or adding a second one:
the participant count is unchanged, exactly one entry carries the id,
the stored username becomes `name`, the cursor is reset to `none`, every
other participant is untouched, and `join` returns a fresh broadcast
receiver (the next subscriber handle, distinct from all previously
issued ones). -/
theorem join_replace_spec (room : CollabRoom) (uid : Nat) (name : String)
    (hpresent : (room.participants.any fun e => e.1 == uid) = true)
    (hnodup : (room.participants.map Prod.fst).Nodup) :
    (room.join uid name).1.participants.length =
      room.participants.length ∧
    mapLookup (room.join uid name).1.participants uid =
      some ⟨uid, name, none⟩ ∧
    ((room.join uid name).1.participants.countP fun e => e.1 == uid) = 1 ∧
    (∀ p, p ≠ uid →
      mapLookup (room.join uid name).1.participants p =
        mapLookup room.participants p) ∧
    (room.join uid name).2 = room.subscriber_count ∧
    (room.join uid name).1.subscriber_count = room.subscriber_count + 1 := by
  have hins : mapInsert room.participants uid ⟨uid, name, none⟩ =
      room.participants.map fun e =>
        if e.1 == uid then
          (uid, Function.const ParticipantInfo ⟨uid, name, none⟩ e.2)
        else e := by
    rw [mapInsert, if_pos hpresent]
    rfl
  refine ⟨?_, ?_, ?_, ?_, rfl, rfl⟩
  · show (mapInsert room.participants uid ⟨uid, name, none⟩).length = _
    rw [hins, List.length_map]
  · show mapLookup (mapInsert room.participants uid ⟨uid, name, none⟩) uid = _
    rw [hins, mapLookup, find?_map_replace_self room.participants uid
      (Function.const ParticipantInfo ⟨uid, name, none⟩)]
    cases hfind : room.participants.find? fun e => e.1 == uid with
    | none =>
      obtain ⟨e, he, hek⟩ := List.any_eq_true.mp hpresent
      exact absurd hek (by simpa using List.find?_eq_none.mp hfind e he)
    | some e => rfl
  · show ((mapInsert room.participants uid ⟨uid, name, none⟩).countP
      fun e => e.1 == uid) = 1
    rw [hins, countP_map_replace room.participants uid
      (Function.const ParticipantInfo ⟨uid, name, none⟩)]
    exact countP_eq_one_of_nodup room.participants uid hnodup hpresent
  · intro p hp
    show mapLookup (mapInsert room.participants uid ⟨uid, name, none⟩) p = _
    rw [hins, mapLookup, find?_map_replace_ne room.participants uid p hp
      (Function.const ParticipantInfo ⟨uid, name, none⟩), mapLookup]

/-- Closed witness for `join_replace_spec`: joining id `7` (already
present with username `"old"` and a set cursor) under username `"new"`
keeps one participant, stores the new entry, and hands out receiver
handle `4` while advancing the counter. -/
theorem join_replace_spec_witness :
    (CollabRoom.join ⟨⟨1⟩, 4, [(7, ⟨7, "old", some 3⟩)]⟩ 7
      "new").1.participants.length = 1 ∧
    mapLookup (CollabRoom.join ⟨⟨1⟩, 4, [(7, ⟨7, "old", some 3⟩)]⟩ 7
      "new").1.participants 7 = some ⟨7, "new", none⟩ ∧
    (CollabRoom.join ⟨⟨1⟩, 4, [(7, ⟨7, "old", some 3⟩)]⟩ 7 "new").2 = 4 := by
  have h := join_replace_spec ⟨⟨1⟩, 4, [(7, ⟨7, "old", some 3⟩)]⟩ 7 "new"
    rfl (by simp)
  exact ⟨h.1, h.2.1, h.2.2.2.2.1⟩

/-! ## Legacy JSON sync envelope (sync.rs)

`SyncProtocol::encode` is `serde_json::to_vec`, `decode` is
`serde_json::from_slice`.  The serde derive on `SyncMessage` uses the
adjacently-tagged representation `#[serde(tag = "type", content =
"data")]`, so a message serializes as the JSON object
`{"type": <variant name>, "data": {<field>: [<bytes>]}}`.  The embedding
works at the level of the JSON value tree: `serde_json`'s rendering of a
value tree to bytes and parsing back is treated as the identity, while
the repository-specific part — the shape of the tree for each variant
and its deserialization, including the `u8` range check on array
elements — is modelled explicitly.  `Vec<u8>` payloads are
`List (Fin 256)`. -/

/-- A JSON value tree (the image of `serde_json::Value` needed here). -/
inductive Json where
  | null : Json
  | bool (b : Bool) : Json
  | num (n : Nat) : Json
  | str (s : String) : Json
  | arr (items : List Json) : Json
  | obj (fields : List (String × Json)) : Json

/-- `SyncMessage` (sync.rs lines 8–20). -/
inductive SyncMessage where
  | syncStep1 (state_vector : List (Fin 256)) : SyncMessage
  | syncStep2 (update : List (Fin 256)) : SyncMessage
  | update (update : List (Fin 256)) : SyncMessage
  | awareness (update : List (Fin 256)) : SyncMessage
deriving Repr, DecidableEq

/-- A `Vec<u8>` serializes as a JSON array of numbers. -/
def bytesToJson (l : List (Fin 256)) : Json :=
  .arr (l.map fun b => .num b.val)

/-- The serde-derived `Serialize` for `SyncMessage` under the
adjacently-tagged representation. -/
def SyncProtocol.encode (message : SyncMessage) : Json :=
  match message with
  | .syncStep1 sv =>
    .obj [("type", .str "SyncStep1"),
          ("data", .obj [("state_vector", bytesToJson sv)])]
  | .syncStep2 u =>
    .obj [("type", .str "SyncStep2"), ("data", .obj [("update", bytesToJson u)])]
  | .update u =>
    .obj [("type", .str "Update"), ("data", .obj [("update", bytesToJson u)])]
  | .awareness u =>
    .obj [("type", .str "Awareness"), ("data", .obj [("update", bytesToJson u)])]

/-- Deserialize one JSON number as a `u8`, range-checked. -/
def jsonToByte (j : Json) : Except String (Fin 256) :=
  match j with
  | .num n => if h : n < 256 then .ok ⟨n, h⟩ else .error "u8 out of range"
  | _ => .error "expected number"

/-- Deserialize a JSON array as a `Vec<u8>`. -/
def jsonToBytes (j : Json) : Except String (List (Fin 256)) :=
  match j with
  | .arr items => items.mapM jsonToByte
  | _ => .error "expected array"

/-- Look up a field of a JSON object. -/
def jsonField (fields : List (String × Json)) (key : String) :
    Except String Json :=
  match fields.find? fun f => f.1 == key with
  | some f => .ok f.2
  | none => .error "missing field"

/-- The serde-derived `Deserialize` for `SyncMessage`: read the `type`
tag, then the single byte-array field of the `data` object. -/
def SyncProtocol.decode (j : Json) : Except String SyncMessage :=
  match j with
  | .obj fields =>
    match jsonField fields "type" with
    | .error e => .error e
    | .ok (.str tag) =>
      match jsonField fields "data" with
      | .error e => .error e
      | .ok (.obj dataFields) =>
        if tag = "SyncStep1" then
          match jsonField dataFields "state_vector" with
          | .error e => .error e
          | .ok v => (jsonToBytes v).map .syncStep1
        else if tag = "SyncStep2" then
          match jsonField dataFields "update" with
          | .error e => .error e
          | .ok v => (jsonToBytes v).map .syncStep2
        else if tag = "Update" then
          match jsonField dataFields "update" with
          | .error e => .error e
          | .ok v => (jsonToBytes v).map .update
        else if tag = "Awareness" then
          match jsonField dataFields "update" with
          | .error e => .error e
          | .ok v => (jsonToBytes v).map .awareness
        else .error "unknown variant"
      | .ok _ => .error "expected object"
    | .ok _ => .error "expected string tag"
  | _ => .error "expected object"

/-- Byte arrays survive the JSON round trip. -/
theorem jsonToBytes_bytesToJson (l : List (Fin 256)) :
    jsonToBytes (bytesToJson l) = .ok l := by
  rw [bytesToJson, jsonToBytes]
  induction l with
  | nil => rfl
  | cons b t ih =>
    rw [List.map_cons, List.mapM_cons]
    have hb : jsonToByte (.num b.val) = .ok b := by
      rw [jsonToByte, dif_pos b.isLt]
    rw [hb]
    simp only [List.map_map] at ih ⊢
    rw [ih]
    rfl

/-- **C9.** For every legacy JSON envelope value `m` of type
`SyncMessage` (SyncStep1, SyncStep2, Update, or Awareness with any byte
payload), `SyncProtocol.decode (SyncProtocol.encode m)` returns `ok` of
a message equal to `m`. -/
theorem sync_message_round_trip (m : SyncMessage) :
    SyncProtocol.decode (SyncProtocol.encode m) = .ok m := by
  cases m with
  | syncStep1 sv =>
    have ht : jsonField [("type", Json.str "SyncStep1"),
        ("data", Json.obj [("state_vector", bytesToJson sv)])] "type" =
        .ok (.str "SyncStep1") := rfl
    have hd : jsonField [("type", Json.str "SyncStep1"),
        ("data", Json.obj [("state_vector", bytesToJson sv)])] "data" =
        .ok (.obj [("state_vector", bytesToJson sv)]) := rfl
    have hf : jsonField [("state_vector", bytesToJson sv)] "state_vector" =
        .ok (bytesToJson sv) := rfl
    simp only [SyncProtocol.encode, SyncProtocol.decode, ht, hd]
    rw [if_pos trivial]
    simp only [hf, jsonToBytes_bytesToJson]
    rfl
  | syncStep2 u =>
    have ht : jsonField [("type", Json.str "SyncStep2"),
        ("data", Json.obj [("update", bytesToJson u)])] "type" =
        .ok (.str "SyncStep2") := rfl
    have hd : jsonField [("type", Json.str "SyncStep2"),
        ("data", Json.obj [("update", bytesToJson u)])] "data" =
        .ok (.obj [("update", bytesToJson u)]) := rfl
    have hf : jsonField [("update", bytesToJson u)] "update" =
        .ok (bytesToJson u) := rfl
    simp only [SyncProtocol.encode, SyncProtocol.decode, ht, hd]
    rw [if_neg (by decide), if_pos trivial]
    simp only [hf, jsonToBytes_bytesToJson]
    rfl
  | update u =>
    have ht : jsonField [("type", Json.str "Update"),
        ("data", Json.obj [("update", bytesToJson u)])] "type" =
        .ok (.str "Update") := rfl
    have hd : jsonField [("type", Json.str "Update"),
        ("data", Json.obj [("update", bytesToJson u)])] "data" =
        .ok (.obj [("update", bytesToJson u)]) := rfl
    have hf : jsonField [("update", bytesToJson u)] "update" =
        .ok (bytesToJson u) := rfl
    simp only [SyncProtocol.encode, SyncProtocol.decode, ht, hd]
    rw [if_neg (by decide), if_neg (by decide), if_pos trivial]
    simp only [hf, jsonToBytes_bytesToJson]
    rfl
  | awareness u =>
    have ht : jsonField [("type", Json.str "Awareness"),
        ("data", Json.obj [("update", bytesToJson u)])] "type" =
        .ok (.str "Awareness") := rfl
    have hd : jsonField [("type", Json.str "Awareness"),
        ("data", Json.obj [("update", bytesToJson u)])] "data" =
        .ok (.obj [("update", bytesToJson u)]) := rfl
    have hf : jsonField [("update", bytesToJson u)] "update" =
        .ok (bytesToJson u) := rfl
    simp only [SyncProtocol.encode, SyncProtocol.decode, ht, hd]
    rw [if_neg (by decide), if_neg (by decide), if_neg (by decide),
      if_pos trivial]
    simp only [hf, jsonToBytes_bytesToJson]
    rfl

/-! ## Sandbox execution (limits.rs, executor.rs, routes/sandbox.rs)

The executor is embedded as a pure state machine.  A `DockerEnv` fixes
the outcome of every Docker interaction that one `execute` call
performs, in program order; `execute` then deterministically follows
executor.rs lines 54–153, and additionally returns the trace of
container lifecycle events (creation and removal) it performed.  The
`tokio::time::timeout` race of executor.rs lines 120–135 is abstracted
by `DockerEnv.collect`: `none` means the wall clock of `timeout_secs`
elapsed before the output collector finished; `some` carries the
collector's outcome.  Result strings are carried as the byte lists that
`String::from_utf8_lossy` is applied to (byte-preserving on UTF-8
input). -/

/-- `ResourceLimits` (limits.rs lines 7–25). -/
structure ResourceLimits where
  memory_bytes : Nat
  cpu_quota : Int
  pids_limit : Int
  timeout_secs : Nat
  max_output_bytes : Nat
  network_enabled : Bool
deriving Repr, DecidableEq

/-- `ResourceLimits::default` (limits.rs lines 27–38). -/
def ResourceLimits.default : ResourceLimits :=
  { memory_bytes := 256 * 1024 * 1024
    cpu_quota := 50000
    pids_limit := 64
    timeout_secs := 30
    max_output_bytes := 1024 * 1024
    network_enabled := false }

/-- `ResourceLimits::snippet` (limits.rs lines 42–51). -/
def ResourceLimits.snippet : ResourceLimits :=
  { memory_bytes := 128 * 1024 * 1024
    cpu_quota := 25000
    pids_limit := 32
    timeout_secs := 10
    max_output_bytes := 64 * 1024
    network_enabled := false }

/-- `ResourceLimits::project` (limits.rs lines 54–63). -/
def ResourceLimits.project : ResourceLimits :=
  { memory_bytes := 1024 * 1024 * 1024
    cpu_quota := 100000
    pids_limit := 256
    timeout_secs := 300
    max_output_bytes := 10 * 1024 * 1024
    network_enabled := true }

/-- `Language` (common/models.rs lines 10–24). -/
inductive Language where
  | rust | python | javascript | typescript | go | java | csharp
  | cpp | c | ruby | php | swift | kotlin
deriving Repr, DecidableEq

/-- `Language::extension` (common/models.rs lines 28–44). -/
def Language.extension : Language → String
  | .rust => "rs"
  | .python => "py"
  | .javascript => "js"
  | .typescript => "ts"
  | .go => "go"
  | .java => "java"
  | .csharp => "cs"
  | .cpp => "cpp"
  | .c => "c"
  | .ruby => "rb"
  | .php => "php"
  | .swift => "swift"
  | .kotlin => "kt"

/-- `ExecutionRequest` (executor.rs lines 13–18). -/
structure ExecutionRequest where
  code : String
  language : Language
  stdin : Option String
  args : List String
deriving Repr, DecidableEq

/-- `ExecutionResult` (executor.rs lines 22–28); `stdout`/`stderr` as
the collected bytes. -/
structure ExecutionResult where
  stdout : List Nat
  stderr : List Nat
  exit_code : Int
  execution_time_ms : Nat
  timed_out : Bool
deriving Repr, DecidableEq

/-- `bollard::errors::Error`, by its message. -/
structure BollardError where
  msg : String
deriving Repr, DecidableEq

/-- `bollard::container::LogOutput`: the two handled variants and a
catch-all for the ones the collector ignores (`_ => {}`). -/
inductive LogOutput where
  | stdOut (message : List Nat)
  | stdErr (message : List Nat)
  | other
deriving Repr, DecidableEq

/-- `bollard::exec::StartExecResults`. -/
inductive StartExecResults where
  | attached
  | detached
deriving Repr, DecidableEq

/-- Container lifecycle events performed by one `execute` call. -/
inductive ExecEvent where
  | createContainer (id : String)
  | removeContainer (id : String)
deriving Repr, DecidableEq

/-- Outcomes of the Docker interactions of one `execute` call, in
program order. -/
structure DockerEnv where
  create_container : Except BollardError String
  create_exec_write : Except BollardError String
  start_exec_write : Except BollardError StartExecResults
  write_all : Except BollardError Unit
  shutdown : Except BollardError Unit
  create_exec_run : Except BollardError String
  collect : Option (Except BollardError (List LogOutput))
  inspect_exec : Except BollardError (Option Int)
  remove_container : Except BollardError Unit
  elapsed_ms : Nat

/-- UTF-8 bytes of a string (for the literal `"Execution timed out"`). -/
def utf8Bytes (s : String) : List Nat :=
  s.toUTF8.toList.map fun b => b.toNat

/-- The accumulation loop of `collect_output` (executor.rs lines
216–226): `StdOut` chunks extend the stdout accumulator, `StdErr`
chunks the stderr accumulator, all other variants are ignored.  No
bound is applied. -/
def collect_output_loop (chunks : List LogOutput) (stdout stderr : List Nat) :
    List Nat × List Nat :=
  match chunks with
  | [] => (stdout, stderr)
  | .stdOut m :: rest => collect_output_loop rest (stdout ++ m) stderr
  | .stdErr m :: rest => collect_output_loop rest stdout (stderr ++ m)
  | .other :: rest => collect_output_loop rest stdout stderr

/-- `collect_output` (executor.rs lines 201–233), given the `Ok` chunks
its stream yields. -/
def collect_output (chunks : List LogOutput) : List Nat × List Nat :=
  collect_output_loop chunks [] []

/-- The code-writing block of `execute` (executor.rs lines 90–99):
start the write exec; if attached, stream the code and shut stdin down,
propagating either failure; if detached, skip silently. -/
def write_code_step (env : DockerEnv) : Except BollardError Unit :=
  match env.start_exec_write with
  | .error e => .error e
  | .ok .attached =>
    match env.write_all with
    | .error e => .error e
    | .ok _ => env.shutdown
  | .ok .detached => .ok ()

/-- The timeout race of `execute` (executor.rs lines 119–135): a
timeout yields empty stdout, the literal timeout message and the flag;
otherwise the collector's outcome is propagated (`result?`). -/
def race_step (env : DockerEnv) : Except BollardError (List Nat × List Nat × Bool) :=
  match env.collect with
  | some (.error e) => .error e
  | some (.ok chunks) =>
    let out := collect_output chunks
    .ok (out.1, out.2, false)
  | none => .ok ([], utf8Bytes "Execution timed out", true)

/-- `SandboxExecutor::execute` (executor.rs lines 54–153): create the
container, write the code, create the run exec, race the collector
against the timeout, inspect the exit code (`-1` when absent), remove
the container (result ignored), return the result.  Every `?` as an
early error return; the second component is the trace of container
lifecycle events performed. -/
def execute (limits : ResourceLimits) (env : DockerEnv)
    (request : ExecutionRequest) :
    Except BollardError ExecutionResult × List ExecEvent :=
  match env.create_container with
  | .error e => (.error e, [])
  | .ok container_id =>
    match env.create_exec_write with
    | .error e => (.error e, [.createContainer container_id])
    | .ok _ =>
      match write_code_step env with
      | .error e => (.error e, [.createContainer container_id])
      | .ok _ =>
        match env.create_exec_run with
        | .error e => (.error e, [.createContainer container_id])
        | .ok _ =>
          match race_step env with
          | .error e => (.error e, [.createContainer container_id])
          | .ok (stdout, stderr, timed_out) =>
            match env.inspect_exec with
            | .error e => (.error e, [.createContainer container_id])
            | .ok exitOpt =>
              (.ok { stdout := stdout
                     stderr := stderr
                     exit_code := exitOpt.getD (-1)
                     execution_time_ms := env.elapsed_ms
                     timed_out := timed_out },
               [.createContainer container_id,
                .removeContainer container_id])

/-- `RunCodeRequest` (routes/sandbox.rs lines 18–23). -/
structure RunCodeRequest where
  code : String
  language : Language
  stdin : Option String
deriving Repr, DecidableEq

/-- `RunCodeResponse` (routes/sandbox.rs lines 25–32). -/
structure RunCodeResponse where
  stdout : List Nat
  stderr : List Nat
  exit_code : Int
  execution_time_ms : Nat
  timed_out : Bool
deriving Repr, DecidableEq

/-- The `(StatusCode, ErrorResponse)` pairs produced by `run_code`. -/
inductive RouteError where
  | badRequest (error : String)
  | serviceUnavailable (error : String)
  | internalServerError (error : String)
deriving Repr, DecidableEq

/-- Rust `char::is_whitespace`: the Unicode `White_Space` property —
U+0009–U+000D, U+0020, U+0085, U+00A0, U+1680, U+2000–U+200A, U+2028,
U+2029, U+202F, U+205F and U+3000. -/
def rust_char_is_whitespace (c : Char) : Bool :=
  (0x09 ≤ c.val && c.val ≤ 0x0D) || c.val == 0x20 || c.val == 0x85 ||
  c.val == 0xA0 || c.val == 0x1680 ||
  (0x2000 ≤ c.val && c.val ≤ 0x200A) || c.val == 0x2028 ||
  c.val == 0x2029 || c.val == 0x202F || c.val == 0x205F || c.val == 0x3000

/-- `code.trim().is_empty()` (routes/sandbox.rs line 69): `str::trim`
strips Unicode `White_Space` characters from both ends, so the result
is empty iff every character has the `White_Space` property. -/
def trim_is_empty (s : String) : Bool :=
  s.toList.all rust_char_is_whitespace

/-- `run_code` (routes/sandbox.rs lines 54–123): reject oversized code
(`len()` is the UTF-8 byte count) with 400, then blank code with 400;
then initialize the executor (`init` is the outcome of
`SandboxExecutor::with_limits`, 503 on failure) and run `execute` with
snippet limits, mapping executor errors to 500. -/
def run_code (init : Except BollardError Unit) (env : DockerEnv)
    (body : RunCodeRequest) :
    Except RouteError RunCodeResponse × List ExecEvent :=
  if body.code.utf8ByteSize > 100000 then
    (.error (.badRequest "Code too large (max 100KB)"), [])
  else if trim_is_empty body.code then
    (.error (.badRequest "Code cannot be empty"), [])
  else
    match init with
    | .error e =>
      (.error (.serviceUnavailable ("Sandbox unavailable: " ++ e.msg)), [])
    | .ok _ =>
      match execute ResourceLimits.snippet env
          { code := body.code, language := body.language,
            stdin := body.stdin, args := [] } with
      | (.error e, tr) =>
        (.error (.internalServerError ("Execution failed: " ++ e.msg)), tr)
      | (.ok r, tr) =>
        (.ok { stdout := r.stdout, stderr := r.stderr,
               exit_code := r.exit_code,
               execution_time_ms := r.execution_time_ms,
               timed_out := r.timed_out }, tr)

/-! ### Executor theorems -/

/-- An environment in which every Docker interaction succeeds, the
collector finishes in time with no output, and the exec exits with 0. -/
def envAllOk : DockerEnv :=
  { create_container := .ok "c1"
    create_exec_write := .ok "e1"
    start_exec_write := .ok .attached
    write_all := .ok ()
    shutdown := .ok ()
    create_exec_run := .ok "e2"
    collect := some (.ok [])
    inspect_exec := .ok (some 0)
    remove_container := .ok ()
    elapsed_ms := 1 }

/-- A fixed well-formed request. -/
def reqPy : ExecutionRequest :=
  { code := "print(1)", language := .python, stdin := none, args := [] }

/-- **C1 (failing input).** When the container is created and the very
next step — creating the write exec — fails, `execute` returns the
error with the container created but never removed: the teardown of
executor.rs line 142 is unreachable from the early `?` returns of lines
74–139, so the container leaks, contrary to the claim that it is
removed on every path. -/
theorem execute_error_leaks_container :
    (execute ResourceLimits.default
      { envAllOk with create_exec_write := .error ⟨"create_exec failed"⟩ }
      reqPy) =
      (.error ⟨"create_exec failed"⟩, [.createContainer "c1"]) ∧
    ExecEvent.removeContainer "c1" ∉
      (execute ResourceLimits.default
        { envAllOk with create_exec_write := .error ⟨"create_exec failed"⟩ }
        reqPy).2 := by
  refine ⟨rfl, ?_⟩
  show ExecEvent.removeContainer "c1" ∉ [ExecEvent.createContainer "c1"]
  simp

/-- The single `StdOut` chunk one byte longer than the default output
cap. -/
def bigChunk : List Nat :=
  List.replicate (ResourceLimits.default.max_output_bytes + 1) 120

/-- **C2 (failing input).** `collect_output` never consults
`max_output_bytes`: a run whose stream yields one `StdOut` chunk of
`max_output_bytes + 1` bytes produces an `ExecutionResult` whose stdout
holds all `1048577` bytes, exceeding the cap the claim asserts. -/
theorem execute_output_exceeds_cap :
    (execute ResourceLimits.default
      { envAllOk with collect := some (.ok [.stdOut bigChunk]) } reqPy).1 =
      .ok { stdout := bigChunk, stderr := [], exit_code := 0,
            execution_time_ms := 1, timed_out := false } ∧
    bigChunk.length = ResourceLimits.default.max_output_bytes + 1 ∧
    ResourceLimits.default.max_output_bytes + 1 >
      ResourceLimits.default.max_output_bytes := by
  refine ⟨rfl, ?_, by omega⟩
  rw [bigChunk, List.length_replicate]

/-- **C3 (counterexample).** The claim attributes request validation to
`SandboxExecutor::execute`, but `execute` performs none: on a request
whose code is empty (so empty after trimming), `execute` proceeds to
create a container and returns `ok` — it neither fails with any
`InvalidRequest` error (no such error exists in the executor, whose
error type is `bollard::errors::Error`) nor avoids container
creation. -/
theorem execute_no_validation :
    trim_is_empty "" = true ∧
    (execute ResourceLimits.default envAllOk
      { code := "", language := .python, stdin := none, args := [] }).1 =
      .ok { stdout := [], stderr := [], exit_code := 0,
            execution_time_ms := 1, timed_out := false } ∧
    ExecEvent.createContainer "c1" ∈
      (execute ResourceLimits.default envAllOk
        { code := "", language := .python, stdin := none, args := [] }).2 := by
  refine ⟨by decide, rfl, ?_⟩
  show ExecEvent.createContainer "c1" ∈
    [ExecEvent.createContainer "c1", ExecEvent.removeContainer "c1"]
  simp

/-- **C3 (amended).** Validation lives in the `run_code` route, which
runs before the executor: a request whose code exceeds 100 000 bytes is
rejected with a 400 error and an empty event trace (no container
created); otherwise a request whose code is empty after trimming is
likewise rejected with 400 and no container; for all other requests the
validation step does not fail — `run_code` never returns a 400 from any
later step. -/
theorem run_code_validation_spec (init : Except BollardError Unit)
    (env : DockerEnv) (body : RunCodeRequest) :
    (body.code.utf8ByteSize > 100000 →
      run_code init env body =
        (.error (.badRequest "Code too large (max 100KB)"), [])) ∧
    (¬ body.code.utf8ByteSize > 100000 → trim_is_empty body.code = true →
      run_code init env body =
        (.error (.badRequest "Code cannot be empty"), [])) ∧
    (¬ body.code.utf8ByteSize > 100000 → trim_is_empty body.code = false →
      ∀ msg, (run_code init env body).1 ≠ .error (.badRequest msg)) := by
  refine ⟨?_, ?_, ?_⟩
  · intro h
    rw [run_code.eq_def, if_pos h]
  · intro h1 h2
    rw [run_code.eq_def, if_neg h1, if_pos h2]
  · intro h1 h2 msg
    rw [run_code.eq_def, if_neg h1, if_neg (by simp [h2])]
    cases init with
    | error e => simp
    | ok u =>
      rcases hex : execute ResourceLimits.snippet env
          { code := body.code, language := body.language,
            stdin := body.stdin, args := [] } with ⟨res, tr⟩
      cases res with
      | error e => simp
      | ok r => simp

/-- Closed witness for `run_code_validation_spec`: blank code (two
spaces) is rejected as empty with no container created, and code `"x"`
passes validation (the result is never a 400). -/
theorem run_code_validation_spec_witness :
    run_code (.ok ()) envAllOk
      { code := "  ", language := .python, stdin := none } =
      (.error (.badRequest "Code cannot be empty"), []) ∧
    ∀ msg, (run_code (.ok ()) envAllOk
      { code := "x", language := .python, stdin := none }).1 ≠
        .error (.badRequest msg) := by
  constructor
  · exact (run_code_validation_spec (.ok ()) envAllOk
      { code := "  ", language := .python, stdin := none }).2.1
      (by decide) (by decide)
  · exact (run_code_validation_spec (.ok ()) envAllOk
      { code := "x", language := .python, stdin := none }).2.2
      (by decide) (by decide)

/-- **C4.** In `execute`, once the container is created, the code
written and the run exec created: if the output collector does not
finish within the timeout, the result has `timed_out = true`,
`stderr = "Execution timed out"` and `stdout = ""`, and no output of the
abandoned collector is read (the result is independent of it by
construction); if the collector finishes in time with chunks, the
result has `timed_out = false` and carries the collected output.  In
both cases `exit_code` is the exec's inspected exit code, or `-1` when
the runtime reports none. -/
theorem execute_timeout_spec (limits : ResourceLimits) (env : DockerEnv)
    (request : ExecutionRequest) (cid wid rid : String) (ec : Option Int)
    (h1 : env.create_container = .ok cid)
    (h2 : env.create_exec_write = .ok wid)
    (h3 : write_code_step env = .ok ())
    (h4 : env.create_exec_run = .ok rid)
    (h5 : env.inspect_exec = .ok ec) :
    (env.collect = none →
      (execute limits env request).1 =
        .ok { stdout := [], stderr := utf8Bytes "Execution timed out",
              exit_code := ec.getD (-1),
              execution_time_ms := env.elapsed_ms, timed_out := true }) ∧
    (∀ chunks, env.collect = some (.ok chunks) →
      (execute limits env request).1 =
        .ok { stdout := (collect_output chunks).1,
              stderr := (collect_output chunks).2,
              exit_code := ec.getD (-1),
              execution_time_ms := env.elapsed_ms, timed_out := false }) := by
  constructor
  · intro hc
    simp only [execute, h1, h2, h3, h4, race_step, hc, h5]
  · intro chunks hc
    simp only [execute, h1, h2, h3, h4, race_step, hc, h5]

/-- Closed witness for `execute_timeout_spec`: a timing-out run (exit
code absent, reported `-1`) and an in-time run with one stdout chunk. -/
theorem execute_timeout_spec_witness :
    (execute ResourceLimits.default
      { envAllOk with collect := none, inspect_exec := .ok none }
      reqPy).1 =
      .ok { stdout := [], stderr := utf8Bytes "Execution timed out",
            exit_code := -1, execution_time_ms := 1, timed_out := true } ∧
    (execute ResourceLimits.default
      { envAllOk with collect := some (.ok [.stdOut [104, 105]]) }
      reqPy).1 =
      .ok { stdout := [104, 105], stderr := [], exit_code := 0,
            execution_time_ms := 1, timed_out := false } := by
  constructor
  · exact (execute_timeout_spec ResourceLimits.default
      { envAllOk with collect := none, inspect_exec := .ok none }
      reqPy "c1" "e1" "e2" none rfl rfl rfl rfl rfl).1 rfl
  · exact (execute_timeout_spec ResourceLimits.default
      { envAllOk with collect := some (.ok [.stdOut [104, 105]]) }
      reqPy "c1" "e1" "e2" (some 0) rfl rfl rfl rfl rfl).2
      [.stdOut [104, 105]] rfl
